import Mathlib

/-!
Shallow embedding of the protocol / key-derivation core of `wdpass`
(`src/wdpass/__init__.py`), a Linux utility driving the vendor-specific
command set of WD Passport self-encrypting USB enclosures.

Bytes are modelled as `Nat` (device responses always hold values `< 256`;
where that matters a theorem carries the bound as a hypothesis), byte
strings as `List Nat`, and Python `str` values as lists of Unicode code
points.  Fallible operations return `Except`/`Option` or a result
inductive with one constructor per exit path of the Python function.
The external SHA-256 (`hashlib.sha256(...).digest()`) is abstracted as a
parameter `H : List Nat → List Nat`; every property proved here is about
the code around it, not about the hash itself.
-/

set_option autoImplicit false
set_option maxRecDepth 8192
set_option maxHeartbeats 2000000

namespace WDPass

/-- `BLOCK_SIZE = 512`, the response length of status / Handy Store reads. -/
def BLOCK_SIZE : Nat := 512

/-- `htonl(num)`: `struct.pack('!I', num)`, the 4 big-endian bytes of a u32. -/
def htonl (num : Nat) : List Nat :=
  [num / 0x1000000 % 256, num / 0x10000 % 256, num / 0x100 % 256, num % 256]

/-- `htons(num)`: `struct.pack('!H', num)`, the 2 big-endian bytes of a u16. -/
def htons (num : Nat) : List Nat :=
  [num / 0x100 % 256, num % 256]

/-- The Python idiom `i = k; for c in vs: l[i] = c; i += 1`:
write the bytes `vs` into `l` starting at index `k`. -/
def setBytesFrom (l : List Nat) (k : Nat) (vs : List Nat) : List Nat :=
  match vs with
  | [] => l
  | v :: rest => setBytesFrom (l.set k v) (k + 1) rest

/-- The cipher-id → password-block-length table appearing verbatim in
`unlock` and `change_password`: `0x10/0x12/0x18 → 16`,
`0x20/0x22/0x28 → 32`, `0x30 → 32`, anything else is unsupported
(`none`, the Python code exits). -/
def pwblenOf (cipher_id : Nat) : Option Nat :=
  if cipher_id = 0x10 ∨ cipher_id = 0x12 ∨ cipher_id = 0x18 then some 16
  else if cipher_id = 0x20 ∨ cipher_id = 0x22 ∨ cipher_id = 0x28 then some 32
  else if cipher_id = 0x30 then some 32
  else none

/-! ## Command codec: Handy Store read -/

/-- A raw vendor command: 10-byte descriptor, outbound payload, expected
inbound length. -/
structure RawCommand where
  descriptor : List Nat
  payload : List Nat
  inLen : Nat
  deriving Repr, DecidableEq

/-- `read_handy_store(page)`: descriptor template
`[0xD8,0,0,0,0,1,0,0,1,0]` with `htonl(page)` written over bytes 2–5;
no outbound payload; expects a `BLOCK_SIZE`-byte response. -/
def read_handy_store_cmd (page : Nat) : RawCommand :=
  { descriptor :=
      setBytesFrom [0xD8, 0x00, 0x00, 0x00, 0x00, 0x01, 0x00, 0x00, 0x01, 0x00] 2 (htonl page)
    payload := []
    inLen := BLOCK_SIZE }

/-! ## Handy Store block 1: checksum, signature, extraction -/

/-- `hsb_checksum(data)`: sum of `data[0..509]` plus `data[0]` counted a
second time, negated modulo 256 (`(c * -1) & 0xFF`).  The Python function
returns `hex(r)`; since `hex` is injective the numeric value is kept. -/
def hsb_checksum (data : List Nat) : Nat :=
  let c := (data.take 510).sum + data.getD 0 0
  (256 - c % 256) % 256

/-- The fixed HSB1 signature `[0x00, 0x01, 0x44, 0x57]`. -/
def hsbSignature : List Nat := [0x00, 0x01, 0x44, 0x57]

inductive HSB1Error where
  | badChecksum
  | badSignature
  deriving Repr, DecidableEq

/-- The values extracted from a validated Handy Store block 1. -/
structure HSB1 where
  iteration : Nat
  salt : List Nat
  hint : List Nat
  deriving Repr, DecidableEq

instance : DecidableEq (Except HSB1Error HSB1) := fun a b =>
  match a, b with
  | .error x, .error y =>
    if h : x = y then .isTrue (by rw [h]) else .isFalse (by simp [h])
  | .ok x, .ok y =>
    if h : x = y then .isTrue (by rw [h]) else .isFalse (by simp [h])
  | .error _, .ok _ => .isFalse (by simp)
  | .ok _, .error _ => .isFalse (by simp)

/-- A concrete valid Handy Store block 1: the signature, zeros
everywhere else, and the matching checksum byte `0x64`
(`-(0x00+0x01+0x44+0x57+0x00) mod 256`). -/
def hsbTestBlock : List Nat := hsbSignature ++ List.replicate 506 0 ++ [0x00, 0x64]

/-- `read_HSB1()`, applied to the 512-byte sector it fetched: first the
checksum comparison (`hsb_checksum(sector_data) != hex(sector_data[511])`
fails), then the byte-wise signature comparison, then extraction of
`iteration` (LE u32 at offset 8), `salt = sector_data[12:20] + [0,0]`,
`hint = sector_data[24:226] + [0,0]`. -/
def read_HSB1 (sector_data : List Nat) : Except HSB1Error HSB1 :=
  if hsb_checksum sector_data ≠ sector_data.getD 511 0 then
    .error .badChecksum
  else if ¬ (List.range 4).all (fun i => hsbSignature.getD i 0 = sector_data.getD i 0) then
    .error .badSignature
  else
    .ok { iteration :=
            sector_data.getD 8 0 + sector_data.getD 9 0 * 0x100 +
              sector_data.getD 10 0 * 0x10000 + sector_data.getD 11 0 * 0x1000000
          salt := (sector_data.drop 12).take 8 ++ [0x00, 0x00]
          hint := (sector_data.drop 24).take 202 ++ [0x00, 0x00] }

/-! ## Password derivation (`mk_password_block`) -/

/-- The salt-cleaning loop of `mk_password_block`: walk the salt two
bytes at a time (`range(len(salt)//2)`), break at the first all-zero
pair, and collect `chr(salt[2*i])` (the pair's low byte) otherwise.  A
trailing odd byte is never examined. -/
def cleanSalt : List Nat → List Nat
  | a :: b :: rest => if a = 0 ∧ b = 0 then [] else a :: cleanSalt rest
  | _ => []

/-- UTF-16LE code units of one code point: points below `0x10000` encode
as two bytes little-endian; higher points as a surrogate pair. -/
def utf16leChar (c : Nat) : List Nat :=
  if c < 0x10000 then [c % 256, c / 256 % 256]
  else
    let v := c - 0x10000
    let hi := 0xD800 + v / 0x400
    let lo := 0xDC00 + v % 0x400
    [hi % 256, hi / 256 % 256, lo % 256, lo / 256 % 256]

/-- UTF-16LE encoding of a sequence of code points. -/
def utf16le (s : List Nat) : List Nat :=
  (s.map utf16leChar).flatten

/-- Python's `str.encode("utf-16")` on a little-endian host: the 2-byte
BOM `FF FE` followed by the UTF-16LE code units. -/
def encodeUtf16 (s : List Nat) : List Nat :=
  [0xFF, 0xFE] ++ utf16le s

/-- The hashing loop `for _ in range(iteration): password = sha256(password).digest()`,
with the hash abstracted as `H`. -/
def hashLoop (H : List Nat → List Nat) : Nat → List Nat → List Nat
  | 0, x => x
  | n + 1, x => hashLoop H n (H x)

/-- `mk_password_block(passwd, iteration, salt)`: clean the salt, prepend
it to the passphrase, encode via `.encode("utf-16")[2:]`, then hash
`iteration` times. -/
def mk_password_block (H : List Nat → List Nat) (passwd : List Nat)
    (iteration : Nat) (salt : List Nat) : List Nat :=
  let password := cleanSalt salt ++ passwd
  let encoded := (encodeUtf16 password).drop 2
  hashLoop H iteration encoded

/-! ### The spec's reference definition of derivation (for the refinement
claim): written from the specification's wording, to be compared with
`mk_password_block` above. -/

/-- Chop a byte string into its complete (low, high) byte pairs. -/
def bytePairs : List Nat → List (Nat × Nat)
  | a :: b :: rest => (a, b) :: bytePairs rest
  | _ => []

/-- Modelled from the spec: "clean the salt by taking byte pairs,
stopping at the first all-zero pair and keeping each pair's low byte as
a character". -/
def cleanSaltSpec (salt : List Nat) : List Nat :=
  ((bytePairs salt).takeWhile (fun p => ¬ (p.1 = 0 ∧ p.2 = 0))).map Prod.fst

/-- Modelled from the spec: "apply the hash to the byte sequence, then
re-apply it to its own output, `n` times total". -/
def hashIterSpec (H : List Nat → List Nat) : Nat → List Nat → List Nat
  | 0, x => x
  | n + 1, x => H (hashIterSpec H n x)

/-- Modelled from the spec: "concatenate the cleaned salt with the
passphrase; encode the concatenation as UTF-16 little-endian code units
and drop the first 2 encoded bytes (an artifact of the encoding step,
i.e. the byte-order mark); then hash `n` times total". -/
def derive_spec (H : List Nat → List Nat) (passwd : List Nat)
    (n : Nat) (salt : List Nat) : List Nat :=
  hashIterSpec H n (([0xFF, 0xFE] ++ utf16le (cleanSaltSpec salt ++ passwd)).drop 2)

/-! ## Unlock -/

/-- Outcome of `unlock`: a plain return after "already unlocked"
(statuses `0x00`/`0x02`), `sys.exit(1)` on a wrong status or an
unsupported cipher, or an unlock command handed to `py3_sg.write`. -/
inductive UnlockResult where
  | alreadyUnlocked
  | invalidState
  | unsupportedCipher
  | sendCommand (cdb : List Nat) (payload : List Nat)
  deriving Repr, DecidableEq

/-- `unlock`, given the security status and cipher id of the preceding
status read and the already-derived password hash (`mk_password_block`
output, or the keyring bytes on the saved-password path): gate on the
status, look up `pwblen`, build `pw_block = [0x45,0,0,0,0,0] ++ htons pwblen`,
set `cdb[8] = pwblen + 8`, and send `pw_block` followed by the whole
`pwd_hashed`. -/
def unlock (sec_status cipher_id : Nat) (pwd_hashed : List Nat) : UnlockResult :=
  let cdb := [0xC1, 0xE1, 0x00, 0x00, 0x00, 0x00, 0x00, 0x00, 0x28, 0x00]
  if sec_status = 0x00 ∨ sec_status = 0x02 then
    .alreadyUnlocked
  else if sec_status ≠ 0x01 then
    .invalidState
  else
    match pwblenOf cipher_id with
    | none => .unsupportedCipher
    | some pwblen =>
      let pw_block := [0x45, 0x00, 0x00, 0x00, 0x00, 0x00] ++ htons pwblen
      .sendCommand (cdb.set 8 (pwblen + 8)) (pw_block ++ pwd_hashed)

/-! ## ChangePassword -/

/-- A Python value flowing into the payload concatenation of
`change_password`: a `str` (list of code points) or `bytes`.  In Python 3
`bytes + str` raises `TypeError`; `pyAdd` returns `none` there. -/
inductive PyVal where
  | str (chars : List Nat)
  | bytes (bs : List Nat)
  deriving Repr, DecidableEq

/-- Python `+` on the two string-like types: defined on like types,
`TypeError` (`none`) on a mixed pair. -/
def pyAdd : PyVal → PyVal → Option PyVal
  | .str a, .str b => some (.str (a ++ b))
  | .bytes a, .bytes b => some (.bytes (a ++ b))
  | _, _ => none

/-- The 32 NUL characters built for an empty passphrase side
(`for _ in range(32): ... + chr(0x00)`) — a Python `str`, and of fixed
length 32 regardless of `pwblen`. -/
def empty_side_fill : List Nat := List.replicate 32 0x00

/-- The flags byte `pw_block[3]` of `change_password` as a function of
the two passphrase lengths: `| 0x10` when the old passphrase is
non-empty, `| 0x01` when the new one is, then
`if pw_block[3] & 0x11 == 0x11: pw_block[3] &= 0xEE`. -/
def change_password_flags (oldLen newLen : Nat) : Nat :=
  let f := (if 0 < oldLen then 0x10 else 0x00) |||
           (if 0 < newLen then 0x01 else 0x00)
  if f &&& 0x11 = 0x11 then f &&& 0xEE else f

/-- Outcome of `change_password`.  `typeError` marks the Python 3
`TypeError` raised by `bytes + str` in the payload concatenation (caught
by the bare `except`, so no command reaches the device). -/
inductive ChangePwResult where
  | invalidState
  | unsupportedCipher
  | invalidArgument
  | typeError
  | sendCommand (cdb : List Nat) (payload : List Nat)
  deriving Repr, DecidableEq

/-- `change_password`, given the preceding status read's security status
and cipher id, the two passphrases (the interactive re-entry of the new
passphrase is assumed to match), and the Handy Store parameters: gate on
status `0x02`/`0x00`, look up `pwblen`, reject two empty passphrases,
hash each non-empty side with `mk_password_block` (an empty side gets
the 32-NUL `str` fill instead), set the flags byte, set
`cdb[8] = 8 + 2*pwblen`, and concatenate
`_scsi_pack_cdb(pw_block) + old_passwd_hashed + new_passwd_hashed`. -/
def change_password (H : List Nat → List Nat) (sec_status cipher_id : Nat)
    (old_passwd new_passwd : List Nat) (iteration : Nat) (salt : List Nat) :
    ChangePwResult :=
  let cdb := [0xC1, 0xE2, 0x00, 0x00, 0x00, 0x00, 0x00, 0x00, 0x48, 0x00]
  if ¬ (sec_status = 0x02 ∨ sec_status = 0x00) then
    .invalidState
  else
    match pwblenOf cipher_id with
    | none => .unsupportedCipher
    | some pwblen =>
      if old_passwd.length = 0 ∧ new_passwd.length = 0 then
        .invalidArgument
      else
        let old_passwd_hashed : PyVal :=
          if 0 < old_passwd.length then
            .bytes (mk_password_block H old_passwd iteration salt)
          else
            .str empty_side_fill
        let new_passwd_hashed : PyVal :=
          if 0 < new_passwd.length then
            .bytes (mk_password_block H new_passwd iteration salt)
          else
            .str empty_side_fill
        let pw_block := ([0x45, 0x00, 0x00, 0x00, 0x00, 0x00] ++ htons pwblen).set 3
          (change_password_flags old_passwd.length new_passwd.length)
        match pyAdd (.bytes pw_block) old_passwd_hashed >>= fun p =>
              pyAdd p new_passwd_hashed with
        | some (.bytes payload) => .sendCommand (cdb.set 8 (8 + 2 * pwblen)) payload
        | _ => .typeError

/-! ## SecureErase -/

/-- One status-read result: `(SecurityStatus, CurrentCipherID, KeyResetEnabler)`. -/
structure EncStatus where
  sec : Nat
  cipher : Nat
  keyReset : List Nat
  deriving Repr, DecidableEq

/-- Outcome of `secure_erase`.  `statusReads` counts the status-read
round trips performed before the command was encoded; `reads (statusReads - 1)`
is therefore the most recent one. -/
inductive EraseResult where
  | unsupportedCipher
  | sendCommand (cdb : List Nat) (payload : List Nat) (statusReads : Nat)
  deriving Repr, DecidableEq

/-- `secure_erase(cipher_id)`, with the device's successive status-read
results supplied as `reads` (read `k` is the `k`-th status query this
call performs) and `os.urandom(pwblen)` supplied as the prefix of
`rand`: a first status read supplies the default cipher (its token is
bound but later shadowed), `pw_block[3]` is `0x01` except for cipher
`0x30` where the assignment is commented out, `cdb[8] = pwblen + 8`,
`pwblen` random bytes are appended, and then — immediately before the
write — a second status read supplies the `key_reset` token written over
`cdb[2..5]`. -/
def secure_erase (reads : Nat → EncStatus) (rand : Nat → Nat)
    (cipher_arg : Nat) : EraseResult :=
  let cdb := [0xC1, 0xE3, 0x00, 0x00, 0x00, 0x00, 0x00, 0x00, 0x08, 0x00]
  let current_cipher_id := (reads 0).cipher
  let cipher_id := if cipher_arg = 0 then current_cipher_id else cipher_arg
  let pw_block := [0x45, 0x00, 0x00, 0x00, 0x30, 0x00, 0x00, 0x00]
  match pwblenOf cipher_id with
  | none => .unsupportedCipher
  | some pwblen =>
    let pw_block := if cipher_id = 0x30 then pw_block else pw_block.set 3 0x01
    let cdb := cdb.set 8 (pwblen + 8)
    let pw_block := pw_block ++ (List.range pwblen).map rand
    let key_reset := (reads 1).keyReset
    let cdb := setBytesFrom cdb 2 key_reset
    .sendCommand cdb pw_block 2

/-! ## Generic list helper lemmas -/

theorem getD_set_ne (l : List Nat) (i j v d : Nat) (hij : i ≠ j) :
    (l.set i v).getD j d = l.getD j d := by
  induction l generalizing i j with
  | nil => simp
  | cons a t ih =>
    cases i with
    | zero =>
      cases j with
      | zero => exact absurd rfl hij
      | succ j => simp [List.set]
    | succ i =>
      cases j with
      | zero => simp [List.set]
      | succ j =>
        simp only [List.set, List.getD_cons_succ]
        exact ih i j (fun h => hij (by omega))

theorem getD_set_self (l : List Nat) (i v d : Nat) (hi : i < l.length) :
    (l.set i v).getD i d = v := by
  induction l generalizing i with
  | nil => simp at hi
  | cons a t ih =>
    cases i with
    | zero => simp [List.set]
    | succ i =>
      simp only [List.set, List.getD_cons_succ]
      exact ih i (by simpa using hi)

theorem sum_set_add (l : List Nat) (i v : Nat) (hi : i < l.length) :
    (l.set i v).sum + l.getD i 0 = l.sum + v := by
  induction l generalizing i with
  | nil => simp at hi
  | cons a t ih =>
    cases i with
    | zero => simp [List.set]; omega
    | succ i =>
      simp only [List.set, List.sum_cons, List.getD_cons_succ]
      have := ih i (by simpa using hi)
      omega

theorem take_set_lt (l : List Nat) (i n v : Nat) (hin : i < n) :
    (l.set i v).take n = (l.take n).set i v := by
  induction l generalizing i n with
  | nil => simp
  | cons a t ih =>
    cases i with
    | zero =>
      cases n with
      | zero => omega
      | succ n => simp [List.set]
    | succ i =>
      cases n with
      | zero => omega
      | succ n =>
        simp only [List.set, List.take_succ_cons]
        rw [ih i n (by omega)]

theorem getD_take_lt (l : List Nat) (i n d : Nat) (hin : i < n) :
    (l.take n).getD i d = l.getD i d := by
  induction l generalizing i n with
  | nil => simp
  | cons a t ih =>
    cases n with
    | zero => omega
    | succ n =>
      cases i with
      | zero => simp
      | succ i =>
        simp only [List.take_succ_cons, List.getD_cons_succ]
        exact ih i n (by omega)

theorem list_length_eq_four (l : List Nat) (h : l.length = 4) :
    ∃ a b c d, l = [a, b, c, d] := by
  match l, h with
  | [a, b, c, d], _ => exact ⟨a, b, c, d, rfl⟩

/-! ## Claim C2: password derivation matches the spec's reference definition -/

theorem cleanSalt_eq_spec : ∀ l : List Nat, cleanSalt l = cleanSaltSpec l
  | [] => rfl
  | [_] => rfl
  | a :: b :: rest => by
    by_cases h : a = 0 ∧ b = 0
    · simp [cleanSalt, cleanSaltSpec, bytePairs, List.takeWhile, h]
    · simp only [cleanSalt, cleanSaltSpec, bytePairs, List.takeWhile, if_neg h,
        cleanSalt_eq_spec rest]
      simp [h, cleanSaltSpec]

theorem hashIterSpec_comm (H : List Nat → List Nat) (n : Nat) (x : List Nat) :
    hashIterSpec H n (H x) = H (hashIterSpec H n x) := by
  induction n generalizing x with
  | zero => rfl
  | succ n ih => simp [hashIterSpec, ih]

theorem hashLoop_eq_spec (H : List Nat → List Nat) (n : Nat) (x : List Nat) :
    hashLoop H n x = hashIterSpec H n x := by
  induction n generalizing x with
  | zero => rfl
  | succ n ih => simp [hashLoop, hashIterSpec, ih, hashIterSpec_comm]

/-- C2: for every passphrase, salt byte sequence and iteration count,
`mk_password_block` (as translated from the code) equals the spec's
reference definition of the derivation: clean the salt pairwise stopping
at the first all-zero pair and keeping low bytes, concatenate with the
passphrase, encode as UTF-16LE code units dropping the 2 leading
encoding-artifact bytes, and apply the 32-byte hash to its own output
`n` times total. -/
theorem mk_password_block_eq_derive_spec (H : List Nat → List Nat)
    (passwd salt : List Nat) (n : Nat) :
    mk_password_block H passwd n salt = derive_spec H passwd n salt := by
  unfold mk_password_block derive_spec encodeUtf16
  rw [cleanSalt_eq_spec, hashLoop_eq_spec]

/-! ## Claim C5: state gating of `unlock` -/

/-- From status `0x01` with a supported cipher, `unlock` sends the
unlock command: descriptor with length byte `pwblen + 8`, payload
header followed by the whole derived hash. -/
theorem unlock_sends (c pwblen : Nat) (hsh : List Nat)
    (hc : pwblenOf c = some pwblen) :
    unlock 0x01 c hsh =
      .sendCommand [0xC1, 0xE1, 0x00, 0x00, 0x00, 0x00, 0x00, 0x00, pwblen + 8, 0x00]
        (([0x45, 0x00, 0x00, 0x00, 0x00, 0x00] ++ htons pwblen) ++ hsh) := by
  simp only [unlock, hc]
  norm_num

/-- C5: `unlock` is gated on the security status fetched at entry: from
`0x01` (Locked, with a supported cipher) it builds and sends the unlock
command; from `0x00`/`0x02` it returns the "already unlocked" no-op
without sending a command; from any other status it exits with the
invalid-state failure without sending a command. -/
theorem unlock_state_gating (s c : Nat) (hsh : List Nat) :
    ((s = 0x00 ∨ s = 0x02) → unlock s c hsh = .alreadyUnlocked) ∧
    (s ≠ 0x00 → s ≠ 0x01 → s ≠ 0x02 → unlock s c hsh = .invalidState) ∧
    (∀ pwblen, pwblenOf c = some pwblen →
      unlock 0x01 c hsh =
        .sendCommand [0xC1, 0xE1, 0x00, 0x00, 0x00, 0x00, 0x00, 0x00, pwblen + 8, 0x00]
          (([0x45, 0x00, 0x00, 0x00, 0x00, 0x00] ++ htons pwblen) ++ hsh)) := by
  refine ⟨fun h => ?_, fun h0 h1 h2 => ?_, fun pwblen hc => unlock_sends c pwblen hsh hc⟩
  · simp [unlock, h]
  · simp [unlock, h0, h1, h2]

/-- Witness for C5 at concrete inputs: status `0x00` is a no-op, status
`0x06` is an invalid state, and status `0x01` with cipher `0x12`
(pwblen 16) sends the unlock command. -/
theorem unlock_state_gating_witness :
    unlock 0x00 0x12 [] = .alreadyUnlocked ∧
    unlock 0x06 0x12 [] = .invalidState ∧
    unlock 0x01 0x12 (List.replicate 32 0xAB) =
      .sendCommand [0xC1, 0xE1, 0x00, 0x00, 0x00, 0x00, 0x00, 0x00, 16 + 8, 0x00]
        (([0x45, 0x00, 0x00, 0x00, 0x00, 0x00] ++ htons 16) ++ List.replicate 32 0xAB) :=
  ⟨(unlock_state_gating 0x00 0x12 []).1 (Or.inl rfl),
   (unlock_state_gating 0x06 0x12 []).2.1 (by decide) (by decide) (by decide),
   (unlock_state_gating 0x01 0x12 (List.replicate 32 0xAB)).2.2 16 (by decide)⟩

/-! ## Claim C9: HandyStoreRead wire layout -/

/-- C9 counterexample: at page 2 the encoded descriptor is
`D8 00 00 00 00 02 00 00 01 00` — its trailing bytes (indices 6–9) are
`00 00 01 00`, not the claimed tabulated trailer `01 00 00 01 00` (which
would not even fit a 10-byte descriptor): the template byte `01` at
index 5 is overwritten by the page number. -/
theorem read_handy_store_trailer_cex :
    (read_handy_store_cmd 2).descriptor =
      [0xD8, 0x00, 0x00, 0x00, 0x00, 0x02, 0x00, 0x00, 0x01, 0x00] ∧
    (read_handy_store_cmd 2).descriptor ≠
      [0xD8, 0x00] ++ htonl 2 ++ [0x01, 0x00, 0x00, 0x01, 0x00] := by decide

/-- C9 amended: for every page below `2^32`, the HandyStoreRead
descriptor is bytes `D8 00`, the page as a big-endian u32 in bytes 2–5,
then trailing bytes `00 00 01 00`; there is no outbound payload and the
expected inbound response length is 512 bytes. -/
theorem read_handy_store_cmd_layout (p : Nat) (hp : p < 2 ^ 32) :
    read_handy_store_cmd p =
      { descriptor := [0xD8, 0x00] ++ htonl p ++ [0x00, 0x00, 0x01, 0x00]
        payload := []
        inLen := 512 } := rfl

/-- Witness for C9 at page 1: the descriptor is
`D8 00 00 00 00 01 00 00 01 00`. -/
theorem read_handy_store_cmd_layout_witness :
    read_handy_store_cmd 1 =
      { descriptor := [0xD8, 0x00] ++ htonl 1 ++ [0x00, 0x00, 0x01, 0x00]
        payload := []
        inLen := 512 } :=
  read_handy_store_cmd_layout 1 (by decide)

/-! ## Claim C3: ChangePassword flags byte -/

theorem change_password_flags_eq (m n : Nat) :
    change_password_flags m n =
      if 0 < m then (if 0 < n then 0x00 else 0x10)
      else (if 0 < n then 0x01 else 0x00) := by
  by_cases hm : 0 < m <;> by_cases hn : 0 < n <;>
    simp only [change_password_flags, hm, hn, if_true, if_false] <;>
    decide

/-- With an accepted status, a supported cipher and two non-empty
passphrases, `change_password` sends the change-password command:
length byte `8 + 2·pwblen`, flags byte `0x00`, and both full hashes. -/
theorem change_password_sends (H : List Nat → List Nat)
    (s c pwblen iteration : Nat) (old_passwd new_passwd salt : List Nat)
    (hs : s = 0x02 ∨ s = 0x00) (hc : pwblenOf c = some pwblen)
    (ho : old_passwd ≠ []) (hn : new_passwd ≠ []) :
    change_password H s c old_passwd new_passwd iteration salt =
      .sendCommand [0xC1, 0xE2, 0x00, 0x00, 0x00, 0x00, 0x00, 0x00, 8 + 2 * pwblen, 0x00]
        ((([0x45, 0x00, 0x00, 0x00, 0x00, 0x00] ++ htons pwblen).set 3 0x00 ++
            mk_password_block H old_passwd iteration salt) ++
          mk_password_block H new_passwd iteration salt) := by
  have hs2 : ¬ ¬ (s = 0x02 ∨ s = 0x00) := not_not_intro hs
  have h1 : 0 < old_passwd.length := List.length_pos.mpr ho
  have h2 : 0 < new_passwd.length := List.length_pos.mpr hn
  have hf : change_password_flags old_passwd.length new_passwd.length = 0x00 := by
    rw [change_password_flags_eq, if_pos h1, if_pos h2]
  simp only [change_password, hs2, hc,
    if_neg (by omega : ¬ (old_passwd.length = 0 ∧ new_passwd.length = 0)),
    if_pos h1, if_pos h2, hf, pyAdd, Option.bind]
  rfl

/-- C3: within `change_password` (status `0x02`/`0x00`, supported
cipher), the flags byte is a function of which passphrases are empty:
both empty fails with the invalid-argument exit before any
change-password command is built; old empty and new non-empty yields
flags `0x01`; old non-empty and new empty yields flags `0x10`; both
non-empty yields flags `0x00` (the `0x11` value cleared by `& 0xEE`),
and the command sent carries that byte at payload offset 3. -/
theorem change_password_flags_cases (H : List Nat → List Nat)
    (s c pwblen iteration : Nat) (old_passwd new_passwd salt : List Nat)
    (hs : s = 0x02 ∨ s = 0x00) (hc : pwblenOf c = some pwblen) :
    (old_passwd = [] → new_passwd = [] →
      change_password H s c old_passwd new_passwd iteration salt = .invalidArgument) ∧
    (old_passwd = [] → new_passwd ≠ [] →
      change_password_flags old_passwd.length new_passwd.length = 0x01) ∧
    (old_passwd ≠ [] → new_passwd = [] →
      change_password_flags old_passwd.length new_passwd.length = 0x10) ∧
    (old_passwd ≠ [] → new_passwd ≠ [] →
      change_password_flags old_passwd.length new_passwd.length = 0x00 ∧
      change_password H s c old_passwd new_passwd iteration salt =
        .sendCommand [0xC1, 0xE2, 0x00, 0x00, 0x00, 0x00, 0x00, 0x00, 8 + 2 * pwblen, 0x00]
          ((([0x45, 0x00, 0x00, 0x00, 0x00, 0x00] ++ htons pwblen).set 3 0x00 ++
              mk_password_block H old_passwd iteration salt) ++
            mk_password_block H new_passwd iteration salt)) := by
  have hs2 : ¬ ¬ (s = 0x02 ∨ s = 0x00) := not_not_intro hs
  refine ⟨fun ho hn => ?_, fun ho hn => ?_, fun ho hn => ?_, fun ho hn => ?_⟩
  · simp [change_password, hs2, hc, ho, hn]
  · have h1 : ¬ 0 < old_passwd.length := by simp [ho]
    have h2 : 0 < new_passwd.length := List.length_pos.mpr hn
    rw [change_password_flags_eq, if_neg h1, if_pos h2]
  · have h1 : 0 < old_passwd.length := List.length_pos.mpr ho
    have h2 : ¬ 0 < new_passwd.length := by simp [hn]
    rw [change_password_flags_eq, if_pos h1, if_neg h2]
  · have h1 : 0 < old_passwd.length := List.length_pos.mpr ho
    have h2 : 0 < new_passwd.length := List.length_pos.mpr hn
    have hf : change_password_flags old_passwd.length new_passwd.length = 0x00 := by
      rw [change_password_flags_eq, if_pos h1, if_pos h2]
    exact ⟨hf, change_password_sends H s c pwblen iteration old_passwd new_passwd salt
      hs hc ho hn⟩

/-- Witness for C3 at concrete inputs: both sides empty is an invalid
argument; old `"a"`, new empty yields flags `0x10`; both `"a"`/`"b"`
yields flags `0x00` and the change-password command. -/
theorem change_password_flags_cases_witness :
    change_password (fun x => x) 0x02 0x12 [] [] 1 [0x00, 0x00] = .invalidArgument ∧
    change_password_flags ([0x61] : List Nat).length ([] : List Nat).length = 0x10 ∧
    change_password_flags ([0x61] : List Nat).length ([0x62] : List Nat).length = 0x00 ∧
    change_password (fun x => x) 0x02 0x12 [0x61] [0x62] 1 [0x00, 0x00] =
      .sendCommand [0xC1, 0xE2, 0x00, 0x00, 0x00, 0x00, 0x00, 0x00, 8 + 2 * 16, 0x00]
        ((([0x45, 0x00, 0x00, 0x00, 0x00, 0x00] ++ htons 16).set 3 0x00 ++
            mk_password_block (fun x => x) [0x61] 1 [0x00, 0x00]) ++
          mk_password_block (fun x => x) [0x62] 1 [0x00, 0x00]) :=
  ⟨(change_password_flags_cases (fun x => x) 0x02 0x12 16 1 [] [] [0x00, 0x00]
      (Or.inl rfl) (by decide)).1 rfl rfl,
   (change_password_flags_cases (fun x => x) 0x02 0x12 16 1 [0x61] [] [0x00, 0x00]
      (Or.inl rfl) (by decide)).2.2.1 (by decide) rfl,
   ((change_password_flags_cases (fun x => x) 0x02 0x12 16 1 [0x61] [0x62] [0x00, 0x00]
      (Or.inl rfl) (by decide)).2.2.2 (by decide) (by decide)).1,
   ((change_password_flags_cases (fun x => x) 0x02 0x12 16 1 [0x61] [0x62] [0x00, 0x00]
      (Or.inl rfl) (by decide)).2.2.2 (by decide) (by decide)).2⟩

/-! ## Claim C7: SecureErase uses the freshest key-reset token -/

/-- C7: the 4 token bytes written into the SecureErase descriptor
(bytes 2–5) always come from the second — and last — status read the
call performs, executed immediately before the command is encoded; when
the two reads return different tokens, the earlier token never appears
in the descriptor. -/
theorem secure_erase_token_fresh (reads : Nat → EncStatus) (rand : Nat → Nat)
    (cipher_arg pwblen : Nat)
    (hc : pwblenOf (if cipher_arg = 0 then (reads 0).cipher else cipher_arg) = some pwblen)
    (hlen : ((reads 1).keyReset).length = 4) :
    ∃ cdb payload,
      secure_erase reads rand cipher_arg = .sendCommand cdb payload 2 ∧
      (cdb.drop 2).take 4 = (reads 1).keyReset ∧
      ((reads 0).keyReset ≠ (reads 1).keyReset →
        (cdb.drop 2).take 4 ≠ (reads 0).keyReset) := by
  obtain ⟨a, b, c, d, hk⟩ := list_length_eq_four _ hlen
  have hrun : secure_erase reads rand cipher_arg =
      .sendCommand [0xC1, 0xE3, a, b, c, d, 0x00, 0x00, pwblen + 8, 0x00]
        ((if (if cipher_arg = 0 then (reads 0).cipher else cipher_arg) = 0x30 then
            [0x45, 0x00, 0x00, 0x00, 0x30, 0x00, 0x00, 0x00]
          else [0x45, 0x00, 0x00, 0x01, 0x30, 0x00, 0x00, 0x00]) ++
          (List.range pwblen).map rand) 2 := by
    by_cases h30 : (if cipher_arg = 0 then (reads 0).cipher else cipher_arg) = 0x30
    · simp only [secure_erase, hc, hk, if_pos h30, setBytesFrom]
      rfl
    · simp only [secure_erase, hc, hk, if_neg h30, setBytesFrom]
      rfl
  refine ⟨_, _, hrun, by rw [hk]; rfl, fun hne hcontra => hne ?_⟩
  rw [hk, ← hcontra]
  rfl

/-- Witness for C7: two concrete status reads with distinct tokens; the
descriptor carries the second token `[5, 6, 7, 8]`. -/
theorem secure_erase_token_fresh_witness :
    ∃ cdb payload,
      secure_erase
        (fun k => if k = 0 then ⟨0x02, 0x12, [1, 2, 3, 4]⟩ else ⟨0x02, 0x12, [5, 6, 7, 8]⟩)
        (fun _ => 0x42) 0 = .sendCommand cdb payload 2 ∧
      (cdb.drop 2).take 4 =
        ((fun k => if k = 0 then (⟨0x02, 0x12, [1, 2, 3, 4]⟩ : EncStatus)
                   else ⟨0x02, 0x12, [5, 6, 7, 8]⟩) 1).keyReset ∧
      (((fun k => if k = 0 then (⟨0x02, 0x12, [1, 2, 3, 4]⟩ : EncStatus)
                  else ⟨0x02, 0x12, [5, 6, 7, 8]⟩) 0).keyReset ≠
        ((fun k => if k = 0 then (⟨0x02, 0x12, [1, 2, 3, 4]⟩ : EncStatus)
                   else ⟨0x02, 0x12, [5, 6, 7, 8]⟩) 1).keyReset →
        (cdb.drop 2).take 4 ≠
          ((fun k => if k = 0 then (⟨0x02, 0x12, [1, 2, 3, 4]⟩ : EncStatus)
                     else ⟨0x02, 0x12, [5, 6, 7, 8]⟩) 0).keyReset) :=
  secure_erase_token_fresh
    (fun k => if k = 0 then ⟨0x02, 0x12, [1, 2, 3, 4]⟩ else ⟨0x02, 0x12, [5, 6, 7, 8]⟩)
    (fun _ => 0x42) 0 16 (by decide) (by decide)

/-! ## Claim C1: the transmitted hash field (corrected: never truncated) -/

/-- C1 counterexample: cipher `0x12` has `pwblen = 16`, yet the unlock
payload built from a 32-byte digest appends all 32 digest bytes after
the 8-byte `pw_block` header — the hash field is the whole digest, not
its first `pwblen` bytes. -/
theorem unlock_full_digest_cex :
    pwblenOf 0x12 = some 16 ∧
    unlock 0x01 0x12 (List.replicate 32 0xAB) =
      .sendCommand [0xC1, 0xE1, 0x00, 0x00, 0x00, 0x00, 0x00, 0x00, 24, 0x00]
        ([0x45, 0x00, 0x00, 0x00, 0x00, 0x00, 0x00, 0x10] ++ List.replicate 32 0xAB) ∧
    (List.replicate 32 0xAB : List Nat).length ≠ 16 := by decide

/-- C1 amended: `unlock` and `change_password` append each derived hash
value to the outbound payload whole and untruncated, whatever `pwblen`
is; `pwblen` only determines the descriptor length byte (`pwblen + 8`
for Unlock, `8 + 2·pwblen` for ChangePassword) and the two length bytes
inside the payload header. -/
theorem outbound_hash_untruncated (H : List Nat → List Nat)
    (c pwblen iteration : Nat) (digest old_passwd new_passwd salt : List Nat)
    (hc : pwblenOf c = some pwblen) (ho : old_passwd ≠ []) (hn : new_passwd ≠ []) :
    unlock 0x01 c digest =
      .sendCommand [0xC1, 0xE1, 0x00, 0x00, 0x00, 0x00, 0x00, 0x00, pwblen + 8, 0x00]
        (([0x45, 0x00, 0x00, 0x00, 0x00, 0x00] ++ htons pwblen) ++ digest) ∧
    change_password H 0x02 c old_passwd new_passwd iteration salt =
      .sendCommand [0xC1, 0xE2, 0x00, 0x00, 0x00, 0x00, 0x00, 0x00, 8 + 2 * pwblen, 0x00]
        ((([0x45, 0x00, 0x00, 0x00, 0x00, 0x00] ++ htons pwblen).set 3 0x00 ++
            mk_password_block H old_passwd iteration salt) ++
          mk_password_block H new_passwd iteration salt) :=
  ⟨unlock_sends c pwblen digest hc,
   change_password_sends H 0x02 c pwblen iteration old_passwd new_passwd salt
     (Or.inl rfl) hc ho hn⟩

/-- Witness for C1 (amended) at cipher `0x12`, a 32-byte digest and the
passphrases `"a"` / `"b"`. -/
theorem outbound_hash_untruncated_witness :
    unlock 0x01 0x12 (List.replicate 32 0xAB) =
      .sendCommand [0xC1, 0xE1, 0x00, 0x00, 0x00, 0x00, 0x00, 0x00, 16 + 8, 0x00]
        (([0x45, 0x00, 0x00, 0x00, 0x00, 0x00] ++ htons 16) ++ List.replicate 32 0xAB) ∧
    change_password (fun x => x) 0x02 0x12 [0x61] [0x62] 1 [0x00, 0x00] =
      .sendCommand [0xC1, 0xE2, 0x00, 0x00, 0x00, 0x00, 0x00, 0x00, 8 + 2 * 16, 0x00]
        ((([0x45, 0x00, 0x00, 0x00, 0x00, 0x00] ++ htons 16).set 3 0x00 ++
            mk_password_block (fun x => x) [0x61] 1 [0x00, 0x00]) ++
          mk_password_block (fun x => x) [0x62] 1 [0x00, 0x00]) :=
  outbound_hash_untruncated (fun x => x) 0x12 16 1 (List.replicate 32 0xAB)
    [0x61] [0x62] [0x00, 0x00] (by decide) (by decide) (by decide)

/-! ## Claim C6: empty passphrase sides (code bug) -/

/-- C6: at the failing input (old passphrase `"a"`, new passphrase
empty, cipher `0x12` so `pwblen = 16`) the fill built for the empty side
is the fixed 32-character NUL `str` — not `pwblen` zero bytes — and the
`bytes + str` payload concatenation raises `TypeError` (caught by the
bare `except`), so the change-password command is never sent. -/
theorem change_password_empty_side_bug :
    empty_side_fill.length = 32 ∧
    pwblenOf 0x12 = some 16 ∧
    change_password (fun x => x) 0x02 0x12 [0x61] [] 1 [0x00, 0x00] = .typeError ∧
    change_password (fun x => x) 0x02 0x12 [] [0x62] 1 [0x00, 0x00] = .typeError := by
  refine ⟨rfl, rfl, ?_, ?_⟩ <;> decide

/-! ## Claim C8: validation order of `read_HSB1` (corrected) -/

theorem sig_check_iff (a b c d : Nat) (rest : List Nat) :
    ((List.range 4).all fun i =>
        hsbSignature.getD i 0 = (a :: b :: c :: d :: rest).getD i 0) = true ↔
      (a :: b :: c :: d :: rest).take 4 = hsbSignature := by
  have hL : ((List.range 4).all fun i =>
      hsbSignature.getD i 0 = (a :: b :: c :: d :: rest).getD i 0)
      = (decide (0x00 = a) && (decide (0x01 = b) &&
          (decide (0x44 = c) && (decide (0x57 = d) && true)))) := rfl
  have hR : ((a :: b :: c :: d :: rest).take 4 = hsbSignature) ↔
      ([a, b, c, d] = [0x00, 0x01, 0x44, 0x57]) := Iff.rfl
  rw [hL, hR]
  simp only [Bool.and_eq_true, decide_eq_true_eq, List.cons.injEq, and_true]
  constructor <;> intro h <;> omega

/-- C8 counterexample: a block whose first four bytes differ from the
signature and whose checksum byte is also wrong fails with the
*checksum* error, not the signature error: `read_HSB1` compares the
checksum before the signature. -/
theorem read_HSB1_order_cex :
    (List.replicate 511 0 ++ [5] : List Nat).take 4 ≠ hsbSignature ∧
    read_HSB1 (List.replicate 511 0 ++ [5]) = .error .badChecksum := by
  refine ⟨by decide, ?_⟩
  decide

/-- C8 amended: `read_HSB1` validates the checksum first: any checksum
mismatch fails with the checksum error regardless of the signature
bytes; a block with a correct checksum but first four bytes differing
from `00 01 44 57` fails with the signature error; and in either
failure case no extracted values are produced. -/
theorem read_HSB1_validation_order (data : List Nat) (hlen : data.length = 512) :
    (hsb_checksum data ≠ data.getD 511 0 → read_HSB1 data = .error .badChecksum) ∧
    (hsb_checksum data = data.getD 511 0 → data.take 4 ≠ hsbSignature →
      read_HSB1 data = .error .badSignature) ∧
    (∀ e, read_HSB1 data = .error e → ∀ t, read_HSB1 data ≠ .ok t) := by
  obtain ⟨a, b, c, d, rest, rfl⟩ : ∃ a b c d rest, data = a :: b :: c :: d :: rest := by
    match data, hlen with
    | a :: b :: c :: d :: rest, _ => exact ⟨a, b, c, d, rest, rfl⟩
  refine ⟨fun h => ?_, fun h hsig => ?_, fun e he t hok => ?_⟩
  · simp only [read_HSB1, if_pos h]
  · have hnall : ¬ (((List.range 4).all fun i =>
        hsbSignature.getD i 0 = (a :: b :: c :: d :: rest).getD i 0) = true) := by
      rw [sig_check_iff]
      exact hsig
    simp only [read_HSB1, if_neg (not_not_intro h), if_pos hnall]
  · rw [he] at hok
    exact Except.noConfusion hok

/-- Witness for C8 (amended) on concrete blocks: the all-zero block with
checksum byte 5 fails the checksum comparison; the all-zero block with
checksum byte 0 (a correct checksum, since the bytes sum to 0) fails the
signature comparison. -/
theorem read_HSB1_validation_order_witness :
    read_HSB1 (List.replicate 511 0 ++ [5]) = .error .badChecksum ∧
    read_HSB1 (List.replicate 512 0) = .error .badSignature :=
  ⟨(read_HSB1_validation_order (List.replicate 511 0 ++ [5])
      (by rw [List.length_append, List.length_replicate]; decide)).1 (by decide),
   (read_HSB1_validation_order (List.replicate 512 0)
      (by rw [List.length_replicate])).2.1 (by decide) (by decide)⟩

/-! ## Claim C10: shape of the returned salt -/

theorem cleanSalt_length_append_zero_pair :
    ∀ l : List Nat, (cleanSalt (l ++ [0, 0])).length ≤ (l.length + 1) / 2
  | [] => by simp [cleanSalt]
  | [a] => by
    by_cases ha : a = 0 <;> simp [cleanSalt, ha]
  | a :: b :: rest => by
    by_cases h : a = 0 ∧ b = 0
    · simp [cleanSalt, h]
    · have ih := cleanSalt_length_append_zero_pair rest
      simp only [List.cons_append, List.append_eq, cleanSalt, if_neg h, List.length_cons]
      omega

/-- C10: on any 512-byte block accepted by `read_HSB1`, the returned
salt is exactly the 8 raw bytes at offsets 12–19 with an all-zero byte
pair appended, and consequently the salt-cleaning loop of the password
derivation stops at or before that pair: the cleaned salt never exceeds
4 characters. -/
theorem read_HSB1_salt_shape (data : List Nat) (t : HSB1)
    (hlen : data.length = 512) (h : read_HSB1 data = .ok t) :
    t.salt = (data.drop 12).take 8 ++ [0x00, 0x00] ∧
    (cleanSalt t.salt).length ≤ 4 := by
  have hsalt : t.salt = (data.drop 12).take 8 ++ [0x00, 0x00] := by
    unfold read_HSB1 at h
    split at h
    · exact absurd h (by simp)
    · split at h
      · exact absurd h (by simp)
      · simp only [Except.ok.injEq] at h
        rw [← h]
  have hl : ((data.drop 12).take 8).length = 8 := by
    rw [List.length_take, List.length_drop, hlen]
    decide
  refine ⟨hsalt, ?_⟩
  rw [hsalt]
  have hgen := cleanSalt_length_append_zero_pair ((data.drop 12).take 8)
  omega

/-- Witness for C10 on the concrete valid block: the salt is the 8 zero
bytes at offsets 12–19 plus the appended zero pair, and it cleans to at
most 4 characters. -/
theorem read_HSB1_salt_shape_witness :
    (HSB1.mk 0 (List.replicate 8 0 ++ [0x00, 0x00])
        (List.replicate 202 0 ++ [0x00, 0x00])).salt =
      (hsbTestBlock.drop 12).take 8 ++ [0x00, 0x00] ∧
    (cleanSalt (HSB1.mk 0 (List.replicate 8 0 ++ [0x00, 0x00])
        (List.replicate 202 0 ++ [0x00, 0x00])).salt).length ≤ 4 :=
  read_HSB1_salt_shape hsbTestBlock
    (HSB1.mk 0 (List.replicate 8 0 ++ [0x00, 0x00]) (List.replicate 202 0 ++ [0x00, 0x00]))
    (by decide) (by decide)

/-! ## Claim C4: the checksum and single-byte flips (corrected) -/

/-- C4 counterexample: `hsbTestBlock` passes validation; changing its
data byte 0 from `0x00` to `0x80` still satisfies the (double-counting)
checksum comparison, and validation fails with the *signature* error,
not the checksum error. -/
theorem hsb_flip_cex :
    read_HSB1 hsbTestBlock =
      .ok (HSB1.mk 0 (List.replicate 8 0 ++ [0x00, 0x00])
        (List.replicate 202 0 ++ [0x00, 0x00])) ∧
    (0x80 : Nat) ≠ hsbTestBlock.getD 0 0 ∧
    hsb_checksum (hsbTestBlock.set 0 0x80) = (hsbTestBlock.set 0 0x80).getD 511 0 ∧
    read_HSB1 (hsbTestBlock.set 0 0x80) = .error .badSignature := by
  refine ⟨by decide, by decide, by decide, by decide⟩

/-- C4 amended: for every 512-byte block accepted by `read_HSB1` the
double-counting checksum equals stored byte 511, and changing any
single summed data byte (index below 510) to a different byte value
makes validation fail with the checksum error — except for the double
count's one blind spot: changing byte 0 (held at `0x00` by the
signature of any valid block) to `0x80` shifts the sum by exactly 256,
so the checksum still matches and validation fails with the signature
error instead. -/
theorem hsb_flip_detection (data : List Nat) (t : HSB1) (i v : Nat)
    (hlen : data.length = 512) (hbyte : data.getD i 0 < 256) (hv : v < 256)
    (hok : read_HSB1 data = .ok t) (hi : i < 510) (hne : v ≠ data.getD i 0) :
    hsb_checksum data = data.getD 511 0 ∧
    (¬ (i = 0 ∧ v = 0x80) → read_HSB1 (data.set i v) = .error .badChecksum) ∧
    (i = 0 → v = 0x80 → read_HSB1 (data.set i v) = .error .badSignature) := by
  have hchk : hsb_checksum data = data.getD 511 0 := by
    by_contra hcontra
    simp only [read_HSB1, if_pos hcontra] at hok
    exact Except.noConfusion hok
  have hall : ((List.range 4).all fun j =>
      hsbSignature.getD j 0 = data.getD j 0) = true := by
    by_contra hcontra
    simp only [read_HSB1, if_neg (not_not_intro hchk), if_pos hcontra] at hok
    exact Except.noConfusion hok
  have h0 : data.getD 0 0 = 0 := by
    rw [List.all_eq_true] at hall
    have h00 := hall 0 (by decide)
    rw [decide_eq_true_eq] at h00
    exact h00.symm
  have hstored : (data.set i v).getD 511 0 = data.getD 511 0 :=
    getD_set_ne data i 511 v 0 (by omega)
  have htakeset : (data.set i v).take 510 = (data.take 510).set i v :=
    take_set_lt data i 510 v hi
  have hsum : ((data.take 510).set i v).sum + (data.take 510).getD i 0
      = (data.take 510).sum + v := by
    apply sum_set_add
    rw [List.length_take]
    omega
  have hgtake : (data.take 510).getD i 0 = data.getD i 0 := getD_take_lt data i 510 0 hi
  refine ⟨hchk, fun hno => ?_, fun hi0 hv128 => ?_⟩
  · have hcksum_ne : hsb_checksum (data.set i v) ≠ (data.set i v).getD 511 0 := by
      rw [hstored, ← hchk]
      show (256 - (((data.set i v).take 510).sum + (data.set i v).getD 0 0) % 256) % 256 ≠
        (256 - ((data.take 510).sum + data.getD 0 0) % 256) % 256
      rw [htakeset]
      by_cases hi0 : i = 0
      · subst hi0
        have hg0 : (data.set 0 v).getD 0 0 = v := getD_set_self data 0 v 0 (by omega)
        have hvne : v ≠ 0x80 := fun hvv => hno ⟨rfl, hvv⟩
        rw [hg0]
        omega
      · have hg0 : (data.set i v).getD 0 0 = data.getD 0 0 := getD_set_ne data i 0 v 0 hi0
        rw [hg0]
        omega
    simp only [read_HSB1, if_pos hcksum_ne]
  · subst hi0
    subst hv128
    have hg0 : (data.set 0 0x80).getD 0 0 = 0x80 := getD_set_self data 0 0x80 0 (by omega)
    have hcksum_eq : hsb_checksum (data.set 0 0x80) = (data.set 0 0x80).getD 511 0 := by
      rw [hstored, ← hchk]
      show (256 - (((data.set 0 0x80).take 510).sum + (data.set 0 0x80).getD 0 0) % 256) % 256 =
        (256 - ((data.take 510).sum + data.getD 0 0) % 256) % 256
      rw [htakeset, hg0]
      omega
    have hsigfail : ¬ (((List.range 4).all fun j =>
        hsbSignature.getD j 0 = (data.set 0 0x80).getD j 0) = true) := by
      intro hcontra
      rw [List.all_eq_true] at hcontra
      have h00 := hcontra 0 (by decide)
      rw [decide_eq_true_eq] at h00
      rw [hg0] at h00
      exact absurd h00 (by decide)
    simp only [read_HSB1, if_neg (not_not_intro hcksum_eq), if_pos hsigfail]

/-- Witness for C4 (amended) on the concrete valid block: its checksum
matches the stored byte, and changing data byte 4 from `0x00` to `0x07`
is caught by the checksum comparison. -/
theorem hsb_flip_detection_witness :
    hsb_checksum hsbTestBlock = hsbTestBlock.getD 511 0 ∧
    read_HSB1 (hsbTestBlock.set 4 7) = .error .badChecksum := by
  have h := hsb_flip_detection hsbTestBlock
    (HSB1.mk 0 (List.replicate 8 0 ++ [0x00, 0x00]) (List.replicate 202 0 ++ [0x00, 0x00]))
    4 7 (by decide) (by decide) (by decide) (by decide) (by decide) (by decide)
  exact ⟨h.1, h.2.1 (by decide)⟩

end WDPass
